import Mathlib

/-!
The user controller of golang-mongo-restapi.

A shallow embedding of `controllers/user.go`: the three HTTP handlers
`GetUser`, `CreateUser` and `DeleteUser`, run against an explicit model of the
`users` collection.

* A Go `string` is a Lean `String`; `len(s)` is `String.utf8ByteSize`.
* `primitive.ObjectID` is twelve bytes; `ObjectIDFromHex` and `ObjectID.Hex`
  follow the driver (length check, then `encoding/hex`).
* The collection is the list of its documents, in insertion order, with the
  unique index on `_id` that every MongoDB collection carries.
* A handler receives the outcome of the network for its single store call as
  `fault : Option DriverError`, the value `primitive.NewObjectID()` returns as
  `fresh`, and the JSON codec of `models.User` as `codec`.
* A handler returns what it wrote to the `http.ResponseWriter` together with
  the collection after the call.
-/

set_option autoImplicit false

namespace MongoGolang

/-! ## Identifiers -/

/-- The type `primitive.ObjectID`, an array of twelve bytes. -/
structure ObjectID where
  bytes : List (Fin 256)
  size : bytes.length = 12
deriving DecidableEq

/-- The value `primitive.NilObjectID`, the zero value of `ObjectID`. -/
def NilObjectID : ObjectID := ⟨List.replicate 12 0, by decide⟩

/-- Errors of `encoding/hex` and of `ObjectIDFromHex`. -/
inductive HexError where
  | ErrInvalidHex
  | ErrLength
  | InvalidByteError (c : Char)
deriving DecidableEq, Repr

/-- The table `hextable` of `encoding/hex`. -/
def hextable : List Char :=
  ['0', '1', '2', '3', '4', '5', '6', '7', '8', '9', 'a', 'b', 'c', 'd', 'e', 'f']

/-- The value of one hexadecimal character, in either case, as
`reverseHexTable` of `encoding/hex` gives it; `none` for any other byte. -/
def fromHexChar (c : Char) : Option Nat :=
  if '0' ≤ c ∧ c ≤ '9' then some (c.toNat - 48)
  else if 'a' ≤ c ∧ c ≤ 'f' then some (c.toNat - 87)
  else if 'A' ≤ c ∧ c ≤ 'F' then some (c.toNat - 55)
  else none

/-- The function `hex.Decode`: two characters give one byte; the first
character that is not hexadecimal is reported, and so is an odd length. -/
def hexDecode : List Char → Except HexError (List (Fin 256))
  | [] => .ok []
  | [p] =>
    match fromHexChar p with
    | none => .error (.InvalidByteError p)
    | some _ => .error .ErrLength
  | p :: q :: rest =>
    match fromHexChar p with
    | none => .error (.InvalidByteError p)
    | some a =>
      match fromHexChar q with
      | none => .error (.InvalidByteError q)
      | some b =>
        match hexDecode rest with
        | .error e => .error e
        | .ok bs => .ok (Fin.ofNat (a * 16 + b) :: bs)

/-- The function `hex.EncodeToString`: two lower-case characters per byte. -/
def hexEncode : List (Fin 256) → List Char
  | [] => []
  | b :: bs => hextable.getD (b.val / 16) '0' :: hextable.getD (b.val % 16) '0' :: hexEncode bs

/-- The function `primitive.ObjectIDFromHex`: the string must be 24 bytes long
and decode as hexadecimal. -/
def ObjectIDFromHex (s : String) : Except HexError ObjectID :=
  if s.utf8ByteSize ≠ 24 then .error .ErrInvalidHex
  else
    match hexDecode s.data with
    | .error e => .error e
    | .ok bs => if h : bs.length = 12 then .ok ⟨bs, h⟩ else .error .ErrInvalidHex

/-- The method `ObjectID.Hex`: the identifier as 24 hexadecimal characters. -/
def ObjectID.Hex (oid : ObjectID) : String := ⟨hexEncode oid.bytes⟩

/-! ## Records and the collection -/

/-- Modelled from the spec: the record type `models.User`, whose declaration is
in the package `models`. It has the identifier, stored under `_id`, and the
fields the user supplies, a mapping of field name to value. -/
structure User where
  Id : ObjectID
  fields : List (String × String)
deriving DecidableEq

/-- The zero value `models.User{}`. -/
def User.zero : User := ⟨NilObjectID, []⟩

/-- The collection `users` of the database `mongo-golang`: its documents in
insertion order. No two documents share an `_id` (the unique index). -/
structure Collection where
  docs : List User
  unique : (docs.map User.Id).Nodup

/-- The identifiers present in the collection. -/
def Collection.ids (c : Collection) : List ObjectID := c.docs.map User.Id

/-- The document with identifier `oid`, if the collection has one. -/
def Collection.lookup (c : Collection) (oid : ObjectID) : Option User :=
  c.docs.find? (fun u => decide (u.Id = oid))

/-- The collection without documents. -/
def Collection.empty : Collection := ⟨[], List.nodup_nil⟩

/-- A store call that does not reach the server or does not come back within
the bound of the request context. -/
inductive DriverError where
  | unreachable
  | timeout
deriving DecidableEq, Repr

/-- The errors a store call can return. -/
inductive StoreError where
  | driver (e : DriverError)
  | ErrNoDocuments
  | duplicateKey
deriving DecidableEq, Repr

/-- The call `collection.FindOne(ctx, bson.M{"_id": oid}).Decode(&u)`. -/
def FindOne (fault : Option DriverError) (c : Collection) (oid : ObjectID) :
    Except StoreError User :=
  match fault with
  | some e => .error (.driver e)
  | none =>
    match c.lookup oid with
    | none => .error .ErrNoDocuments
    | some u => .ok u

/-- The call `collection.InsertOne(ctx, u)`: the document is added unless its
`_id` is taken. -/
def InsertOne (fault : Option DriverError) (c : Collection) (u : User) :
    Except StoreError Collection :=
  match fault with
  | some e => .error (.driver e)
  | none =>
    if h : u.Id ∈ c.docs.map User.Id then .error .duplicateKey
    else .ok ⟨c.docs ++ [u], by
      rw [List.map_append, List.nodup_append]
      refine ⟨c.unique, by simp, ?_⟩
      intro a ha hb
      simp only [List.map_cons, List.map_nil, List.mem_singleton] at hb
      exact h (hb ▸ ha)⟩

/-- The call `collection.DeleteOne(ctx, bson.M{"_id": oid})`: the first
matching document is removed; the result is `DeletedCount` and the collection
after the call. -/
def DeleteOne (fault : Option DriverError) (c : Collection) (oid : ObjectID) :
    Except StoreError (Nat × Collection) :=
  match fault with
  | some e => .error (.driver e)
  | none =>
    .ok (if (c.lookup oid).isSome then 1 else 0,
      ⟨c.docs.eraseP (fun u => decide (u.Id = oid)),
        (List.eraseP_sublist c.docs).map User.Id |>.nodup c.unique⟩)

/-! ## HTTP -/

/-- What a handler wrote to the `http.ResponseWriter`: the status code, the
`Content-Type` header if the handler set one, and the body. -/
structure Response where
  status : Nat
  contentType : Option String
  body : String
deriving DecidableEq, Repr

/-- The function `http.Error`: a plain-text response, the message followed by a
newline. -/
def httpError (msg : String) (code : Nat) : Response :=
  ⟨code, some "text/plain; charset=utf-8", msg ++ "\n"⟩

/-- The JSON codec of `models.User`, whose declaration is in the package
`models`: `Decode` is `json.NewDecoder(body).Decode(&u)`, giving the record
after decoding and the error, if any; `Marshal` is `json.Marshal(u)`. -/
structure Codec where
  Decode : String → User → User × Option String
  Marshal : User → Except String String

/-- The bytes `uj` a handler writes after `uj, err := json.Marshal(u)`: the
encoding, or nothing when `Marshal` returned an error (which is only printed). -/
def Codec.bytes (codec : Codec) (u : User) : String :=
  match codec.Marshal u with
  | .ok uj => uj
  | .error _ => ""

/-- The handler `UserController.GetUser` for `GET /user/:id`. -/
def GetUser (codec : Codec) (fault : Option DriverError) (c : Collection) (id : String) :
    Response × Collection :=
  match ObjectIDFromHex id with
  | .error _ => (httpError "Invalid ID" 400, c)
  | .ok oid =>
    match FindOne fault c oid with
    | .error _ => (⟨404, none, ""⟩, c)
    | .ok u => (⟨200, some "application/json", codec.bytes u⟩, c)

/-- The handler `UserController.CreateUser` for `POST /user`. -/
def CreateUser (codec : Codec) (fault : Option DriverError) (fresh : ObjectID)
    (c : Collection) (body : String) : Response × Collection :=
  let u : User := { (codec.Decode body User.zero).1 with Id := fresh }
  match InsertOne fault c u with
  | .error _ => (⟨404, none, ""⟩, c)
  | .ok c' => (⟨201, some "application/json", codec.bytes u⟩, c')

/-- The handler `UserController.DeleteUser` for `DELETE /user/:id`. -/
def DeleteUser (fault : Option DriverError) (c : Collection) (id : String) :
    Response × Collection :=
  match ObjectIDFromHex id with
  | .error _ => (httpError "Invalid ID" 400, c)
  | .ok oid =>
    match DeleteOne fault c oid with
    | .error _ => (httpError "User not found" 404, c)
    | .ok (deletedCount, c') =>
      if deletedCount = 0 then (httpError "User not found" 404, c')
      else (⟨200, none, "Deleted user " ++ id ++ "\n"⟩, c')

/-! ## Equality tests and the reading of "well-formed" -/

/-- A result as a sum: the error on the left, the value on the right. -/
def resultSum {ε α : Type} : Except ε α → ε ⊕ α
  | .error e => .inl e
  | .ok a => .inr a

/-- Equality of results is decidable: it is equality of the sums. -/
instance instDecidableEqExcept {ε α : Type} [DecidableEq ε] [DecidableEq α] :
    DecidableEq (Except ε α) := fun x y =>
  decidable_of_iff (resultSum x = resultSum y) (by
    cases x <;> cases y <;> simp [resultSum])

/-- Equality of collections is decidable: it is equality of their documents. -/
instance instDecidableEqCollection : DecidableEq Collection := fun a b =>
  if h : a.docs = b.docs then
    isTrue (by cases a; cases b; simp only at h; subst h; rfl)
  else isFalse (fun e => h (e ▸ rfl))

/-- The hexadecimal characters, in either case. -/
def hexChars : List Char := "0123456789abcdefABCDEF".data

/-- A character is hexadecimal. -/
def IsHexChar (c : Char) : Prop := c ∈ hexChars

instance instDecidableIsHexChar (c : Char) : Decidable (IsHexChar c) := by
  unfold IsHexChar; infer_instance

/-- A well-formed hex-encoded identifier, as the specification words it:
exactly 24 hexadecimal characters. -/
def WellFormedId (id : String) : Prop := id.length = 24 ∧ ∀ c ∈ id.data, IsHexChar c

instance instDecidableWellFormedId (id : String) : Decidable (WellFormedId id) := by
  unfold WellFormedId; infer_instance

/-! ## Sample data -/

/-- An identifier. -/
def sampleOid : ObjectID :=
  ⟨[0x65, 0x4a, 0xbc, 0xde, 0xf0, 0x12, 0x34, 0x56, 0x78, 0x9a, 0xbc, 0xde], by decide⟩

/-- The identifier `sampleOid` as it appears in a path. -/
def sampleId : String := "654abcdef0123456789abcde"

/-- Another identifier. -/
def otherOid : ObjectID :=
  ⟨[0x11, 0x22, 0x33, 0x44, 0x55, 0x66, 0x77, 0x88, 0x99, 0xaa, 0xbb, 0xcc], by decide⟩

/-- The identifier `otherOid` as it appears in a path. -/
def otherId : String := "112233445566778899aabbcc"

/-- A record with the identifier `sampleOid`. -/
def sampleUser : User := ⟨sampleOid, [("name", "Ada")]⟩

/-- A collection with the one record `sampleUser`. -/
def sampleCollection : Collection := ⟨[sampleUser], by decide⟩

/-- The request body of the scenario of the specification. -/
def sampleBody : String := "\x7b\"name\":\"Ada\"\x7d"

/-- The same request body with an identifier of the client's choosing in it. -/
def sampleBodyWithId : String :=
  "\x7b\"id\":\"654abcdef0123456789abcde\",\"name\":\"Ada\"\x7d"

/-- A codec of a record with the one field `name`: it decodes `sampleBody` and
`sampleBodyWithId` and reports an error on every other body, leaving the
record as it was; it writes the identifier under `id` and then the fields. -/
def sampleCodec : Codec where
  Decode body u :=
    if body = sampleBody then (⟨u.Id, [("name", "Ada")]⟩, none)
    else if body = sampleBodyWithId then (⟨sampleOid, [("name", "Ada")]⟩, none)
    else (u, some "invalid character")
  Marshal u :=
    .ok ("\x7b\"id\":\"" ++ u.Id.Hex ++ "\"" ++
      String.join (u.fields.map fun kv => ",\"" ++ kv.1 ++ "\":\"" ++ kv.2 ++ "\"") ++ "\x7d")

/-- The codec `sampleCodec` with every decoding error dropped. -/
def silentCodec : Codec where
  Decode body u := ((sampleCodec.Decode body u).1, none)
  Marshal := sampleCodec.Marshal

/-- A record with the identifier `otherOid`. -/
def otherUser : User := ⟨otherOid, [("name", "Grace")]⟩

/-- A collection with the two records `sampleUser` and `otherUser`. -/
def pairCollection : Collection := ⟨[sampleUser, otherUser], by decide⟩

/-! ## The identifier codec -/

theorem ascii_cases : ∀ n : Fin 128,
    ((fromHexChar (Char.ofNat n.val)).isSome ↔ Char.ofNat n.val ∈ hexChars) ∧
      (Char.ofNat n.val).utf8Size = 1 := by decide

theorem fromHexChar_none_of_large (c : Char) (h : 128 ≤ c.toNat) : fromHexChar c = none := by
  unfold fromHexChar
  have h1 : ¬ (c ≤ '9') := by
    intro h2
    have h3 : c.toNat ≤ '9'.toNat := h2
    have h4 : '9'.toNat = 57 := by decide
    omega
  have h2 : ¬ (c ≤ 'f') := by
    intro h2
    have h3 : c.toNat ≤ 'f'.toNat := h2
    have h4 : 'f'.toNat = 102 := by decide
    omega
  have h3 : ¬ (c ≤ 'F') := by
    intro h2
    have h3 : c.toNat ≤ 'F'.toNat := h2
    have h4 : 'F'.toNat = 70 := by decide
    omega
  simp [h1, h2, h3]

theorem hexChars_small : ∀ c ∈ hexChars, c.toNat < 128 := by decide

theorem fromHexChar_isSome_iff (c : Char) : (fromHexChar c).isSome ↔ IsHexChar c := by
  unfold IsHexChar
  by_cases h : c.toNat < 128
  · have := (ascii_cases ⟨c.toNat, h⟩).1
    simpa [Char.ofNat_toNat] using this
  · constructor
    · intro h1
      rw [fromHexChar_none_of_large c (by omega)] at h1
      simp at h1
    · intro h1
      exact absurd (hexChars_small c h1) h

theorem utf8Size_of_hex (c : Char) (h : IsHexChar c) : c.utf8Size = 1 := by
  have h1 := hexChars_small c h
  have := (ascii_cases ⟨c.toNat, h1⟩).2
  simpa [Char.ofNat_toNat] using this

theorem utf8ByteSize_go_of_hex (l : List Char) (h : ∀ c ∈ l, IsHexChar c) :
    String.utf8ByteSize.go l = l.length := by
  induction l with
  | nil => rfl
  | cons c cs ih =>
    simp only [String.utf8ByteSize.go, List.length_cons]
    rw [ih (fun x hx => h x (List.mem_cons_of_mem _ hx)), utf8Size_of_hex c (h c (List.mem_cons_self _ _))]

theorem utf8ByteSize_of_hex (s : String) (h : ∀ c ∈ s.data, IsHexChar c) :
    s.utf8ByteSize = s.length := by
  cases s with
  | mk l => exact utf8ByteSize_go_of_hex l h

theorem hexDecode_ok (l : List Char) (bs : List (Fin 256)) (h : hexDecode l = .ok bs) :
    l.length = 2 * bs.length ∧ ∀ c ∈ l, IsHexChar c := by
  induction l using hexDecode.induct generalizing bs with
  | case1 => simp [hexDecode] at h; subst h; simp
  | case2 p hp => simp [hexDecode, hp] at h
  | case3 p a hp => simp [hexDecode, hp] at h
  | case4 p q rest hp => simp [hexDecode, hp] at h
  | case5 p q rest a ha hq => simp [hexDecode, ha, hq] at h
  | case6 p q rest a ha b hb e he ih => simp [hexDecode, ha, hb, he] at h
  | case7 p q rest a ha b hb bs' hbs ih =>
    simp [hexDecode, ha, hb, hbs] at h
    subst h
    obtain ⟨h1, h2⟩ := ih bs' hbs
    refine ⟨by simp [h1]; omega, ?_⟩
    intro c hc
    simp only [List.mem_cons] at hc
    rcases hc with rfl | rfl | hc
    · exact (fromHexChar_isSome_iff _).1 (by simp [ha])
    · exact (fromHexChar_isSome_iff _).1 (by simp [hb])
    · exact h2 c hc

theorem hexDecode_of_hex (n : Nat) (l : List Char) (hl : l.length = 2 * n)
    (h : ∀ c ∈ l, IsHexChar c) : ∃ bs, hexDecode l = .ok bs ∧ bs.length = n := by
  induction n generalizing l with
  | zero =>
    have : l = [] := List.length_eq_zero.1 (by omega)
    subst this
    exact ⟨[], rfl, rfl⟩
  | succ n ih =>
    match l, hl, h with
    | p :: q :: rest, hl, h =>
      have hp := (fromHexChar_isSome_iff p).2 (h p (by simp))
      have hq := (fromHexChar_isSome_iff q).2 (h q (by simp))
      obtain ⟨a, ha⟩ := Option.isSome_iff_exists.1 hp
      obtain ⟨b, hb⟩ := Option.isSome_iff_exists.1 hq
      obtain ⟨bs, hbs, hlen⟩ := ih rest (by simp at hl; omega)
        (fun c hc => h c (by simp [hc]))
      exact ⟨Fin.ofNat (a * 16 + b) :: bs, by simp [hexDecode, ha, hb, hbs], by simp [hlen]⟩

theorem hex_digit_roundtrip : ∀ n : Fin 16, fromHexChar (hextable.getD n.val '0') = some n.val := by
  decide

theorem hexDecode_hexEncode (bs : List (Fin 256)) : hexDecode (hexEncode bs) = .ok bs := by
  induction bs with
  | nil => rfl
  | cons b bs ih =>
    have h1 := hex_digit_roundtrip ⟨b.val / 16, by omega⟩
    have h2 := hex_digit_roundtrip ⟨b.val % 16, by omega⟩
    simp only at h1 h2
    simp only [hexEncode, hexDecode, h1, h2, ih]
    congr 2
    apply Fin.ext
    simp [Fin.ofNat]
    omega

theorem hexEncode_length (bs : List (Fin 256)) : (hexEncode bs).length = 2 * bs.length := by
  induction bs with
  | nil => rfl
  | cons b bs ih => simp [hexEncode, ih]; omega

theorem hexEncode_hex (bs : List (Fin 256)) : ∀ c ∈ hexEncode bs, IsHexChar c := by
  intro c hc
  have := (hexDecode_ok _ _ (hexDecode_hexEncode bs)).2
  exact this c hc

/-- A string is accepted by `ObjectIDFromHex` exactly when it is 24 hexadecimal characters. -/
theorem ObjectIDFromHex_ok_iff (id : String) :
    (∃ oid, ObjectIDFromHex id = .ok oid) ↔ WellFormedId id := by
  unfold WellFormedId ObjectIDFromHex
  constructor
  · rintro ⟨oid, h⟩
    split at h
    · cases h
    · rename_i hsize
      split at h
      · cases h
      · rename_i bs hbs
        have hd := hexDecode_ok _ _ hbs
        refine ⟨?_, hd.2⟩
        have := utf8ByteSize_of_hex id hd.2
        omega
  · rintro ⟨hlen, hhex⟩
    have hsize := utf8ByteSize_of_hex id hhex
    obtain ⟨bs, hbs, hl⟩ := hexDecode_of_hex 12 id.data (by have h0 : id.data.length = 24 := hlen; omega) hhex
    refine ⟨⟨bs, hl⟩, ?_⟩
    rw [if_neg (by omega)]
    simp [hbs, hl]

theorem ObjectIDFromHex_error_iff (id : String) :
    (∃ e, ObjectIDFromHex id = .error e) ↔ ¬ WellFormedId id := by
  rw [← ObjectIDFromHex_ok_iff]
  cases h : ObjectIDFromHex id with
  | ok oid => simp
  | error e => simp

theorem ObjectIDFromHex_Hex (oid : ObjectID) : ObjectIDFromHex oid.Hex = .ok oid := by
  have hhex := hexEncode_hex oid.bytes
  have hlen := hexEncode_length oid.bytes
  have hsize : oid.Hex.utf8ByteSize = 24 := by
    rw [utf8ByteSize_of_hex oid.Hex hhex]
    simp [ObjectID.Hex, String.length, hlen, oid.size]
  unfold ObjectIDFromHex
  rw [if_neg (by omega)]
  simp [ObjectID.Hex, hexDecode_hexEncode, oid.size]

/-! ## The collection -/

theorem Collection.ext_docs {c c' : Collection} (h : c.docs = c'.docs) : c = c' := by
  cases c; cases c'; simp only at h; subst h; rfl

theorem find_none_iff (l : List User) (oid : ObjectID) :
    l.find? (fun u => decide (u.Id = oid)) = none ↔ oid ∉ l.map User.Id := by
  induction l with
  | nil => simp
  | cons a l ih =>
    by_cases h : a.Id = oid
    · simp [List.find?, h]
    · have h' : ¬ oid = a.Id := fun e => h e.symm
      simp only [List.find?, h, decide_False, ih, List.map_cons, List.mem_cons, h', false_or]

theorem find_some (l : List User) (oid : ObjectID) (u : User)
    (h : l.find? (fun u => decide (u.Id = oid)) = some u) : u.Id = oid ∧ u ∈ l := by
  refine ⟨?_, List.mem_of_find?_eq_some h⟩
  simpa using List.find?_some h

theorem find_append_fresh (l : List User) (u : User) (h : u.Id ∉ l.map User.Id) :
    (l ++ [u]).find? (fun v => decide (v.Id = u.Id)) = some u := by
  rw [List.find?_append, (find_none_iff l u.Id).2 h]
  simp [List.find?]

theorem find_append_other (l : List User) (u : User) (oid : ObjectID) (h : u.Id ≠ oid) :
    (l ++ [u]).find? (fun v => decide (v.Id = oid)) = l.find? (fun v => decide (v.Id = oid)) := by
  rw [List.find?_append]
  cases l.find? (fun v => decide (v.Id = oid)) <;> simp [List.find?, h]

theorem eraseP_of_absent (l : List User) (oid : ObjectID)
    (h : l.find? (fun u => decide (u.Id = oid)) = none) :
    l.eraseP (fun u => decide (u.Id = oid)) = l := by
  apply List.eraseP_of_forall_not
  intro a ha
  have := (find_none_iff l oid).1 h
  simp only [decide_eq_true_eq]
  intro e
  exact this (e ▸ List.mem_map_of_mem User.Id ha)

theorem find_eraseP_same (l : List User) (oid : ObjectID) (hnd : (l.map User.Id).Nodup) :
    (l.eraseP (fun u => decide (u.Id = oid))).find? (fun u => decide (u.Id = oid)) = none := by
  induction l with
  | nil => simp
  | cons a l ih =>
    rw [List.map_cons, List.nodup_cons] at hnd
    by_cases h : a.Id = oid
    · rw [List.eraseP_cons_of_pos (by simpa using h)]
      exact (find_none_iff l oid).2 (h ▸ hnd.1)
    · rw [List.eraseP_cons_of_neg (by simpa using h)]
      simp only [List.find?, h, decide_False]
      exact ih hnd.2

theorem find_eraseP_other (l : List User) (oid oid' : ObjectID) (h : oid' ≠ oid) :
    (l.eraseP (fun u => decide (u.Id = oid))).find? (fun u => decide (u.Id = oid')) =
      l.find? (fun u => decide (u.Id = oid')) := by
  induction l with
  | nil => simp
  | cons a l ih =>
    by_cases h1 : a.Id = oid
    · rw [List.eraseP_cons_of_pos (by simpa using h1)]
      have h2 : ¬ a.Id = oid' := fun e => h (e ▸ h1)
      simp [List.find?, h2]
    · rw [List.eraseP_cons_of_neg (by simpa using h1)]
      by_cases h2 : a.Id = oid'
      · simp [List.find?, h2]
      · simp only [List.find?, h2, decide_False, ih]

theorem InsertOne_fresh (c : Collection) (u : User) (h : u.Id ∉ c.ids) :
    ∃ c', InsertOne none c u = .ok c' ∧ c'.docs = c.docs ++ [u] := by
  unfold Collection.ids at h
  simp only [InsertOne, h, dite_false]
  exact ⟨_, rfl, rfl⟩

theorem InsertOne_ok (fault : Option DriverError) (c c' : Collection) (u : User)
    (h : InsertOne fault c u = .ok c') :
    fault = none ∧ u.Id ∉ c.ids ∧ c'.docs = c.docs ++ [u] := by
  unfold InsertOne at h
  cases fault with
  | some e => simp at h
  | none =>
    simp only at h
    split at h
    · cases h
    · rename_i hn
      cases h
      exact ⟨rfl, hn, rfl⟩

/-! ## The handlers -/

theorem CreateUser_ok (codec : Codec) (fresh : ObjectID) (c : Collection) (body : String)
    (hfresh : fresh ∉ c.ids) :
    ∃ c', CreateUser codec none fresh c body =
        (⟨201, some "application/json",
          codec.bytes ⟨fresh, (codec.Decode body User.zero).1.fields⟩⟩, c') ∧
      c'.docs = c.docs ++ [⟨fresh, (codec.Decode body User.zero).1.fields⟩] := by
  obtain ⟨c', h1, h2⟩ :=
    InsertOne_fresh c ⟨fresh, (codec.Decode body User.zero).1.fields⟩ hfresh
  refine ⟨c', ?_, h2⟩
  simp only [CreateUser, h1]

theorem CreateUser_created (codec : Codec) (fault : Option DriverError) (fresh : ObjectID)
    (c : Collection) (body : String)
    (h : (CreateUser codec fault fresh c body).1.status = 201) :
    fault = none ∧ fresh ∉ c.ids := by
  unfold CreateUser at h
  simp only at h
  split at h
  · simp at h
  · rename_i c' hc
    have := InsertOne_ok fault c c' _ hc
    exact ⟨this.1, this.2.1⟩

theorem DeleteUser_present (c : Collection) (id : String) (oid : ObjectID) (u : User)
    (hid : ObjectIDFromHex id = .ok oid) (hu : c.lookup oid = some u) :
    ∃ c', DeleteUser none c id = (⟨200, none, "Deleted user " ++ id ++ "\n"⟩, c') ∧
      c'.docs = c.docs.eraseP (fun u => decide (u.Id = oid)) := by
  refine ⟨⟨c.docs.eraseP (fun u => decide (u.Id = oid)),
    (List.eraseP_sublist c.docs).map User.Id |>.nodup c.unique⟩, ?_, rfl⟩
  simp [DeleteUser, hid, DeleteOne, hu]

theorem DeleteUser_absent (fault : Option DriverError) (c : Collection) (id : String)
    (oid : ObjectID) (hid : ObjectIDFromHex id = .ok oid) (hu : c.lookup oid = none) :
    DeleteUser fault c id = (httpError "User not found" 404, c) := by
  cases fault with
  | some e => simp [DeleteUser, hid, DeleteOne]
  | none =>
    simp only [DeleteUser, hid, DeleteOne, hu, Option.isSome_none, Bool.false_eq_true,
      if_false, if_true]
    congr 1
    exact Collection.ext_docs (eraseP_of_absent c.docs oid hu)

/-- Claim C1. Round trip of `CreateUser` then `GetUser`: whenever `CreateUser`
answers 201, having assigned the identifier `fresh`, a `GetUser` on the hex form
of `fresh` in the resulting collection, its store call going through, answers
200 with the same content type and the same body as `CreateUser` returned; that
body is what `json.Marshal` gives for the record made of the decoded fields and
`fresh` (and it is empty only if `json.Marshal` returns an error). -/
theorem create_then_get_round_trip (codec : Codec) (fault : Option DriverError)
    (fresh : ObjectID) (c : Collection) (body : String)
    (h : (CreateUser codec fault fresh c body).1.status = 201) :
    (GetUser codec none (CreateUser codec fault fresh c body).2 fresh.Hex).1.status = 200 ∧
      (GetUser codec none (CreateUser codec fault fresh c body).2 fresh.Hex).1 =
        ⟨200, (CreateUser codec fault fresh c body).1.contentType,
          (CreateUser codec fault fresh c body).1.body⟩ ∧
      (GetUser codec none (CreateUser codec fault fresh c body).2 fresh.Hex).1.body =
        codec.bytes ⟨fresh, (codec.Decode body User.zero).1.fields⟩ ∧
      (∀ uj, codec.Marshal ⟨fresh, (codec.Decode body User.zero).1.fields⟩ = .ok uj →
        (CreateUser codec fault fresh c body).1.body = uj ∧
          (GetUser codec none (CreateUser codec fault fresh c body).2 fresh.Hex).1.body = uj) ∧
      (∀ e, codec.Marshal ⟨fresh, (codec.Decode body User.zero).1.fields⟩ = .error e →
        (CreateUser codec fault fresh c body).1.body = "" ∧
          (GetUser codec none (CreateUser codec fault fresh c body).2 fresh.Hex).1.body = "") := by
  obtain ⟨hf, hfresh⟩ := CreateUser_created codec fault fresh c body h
  subst hf
  obtain ⟨c', hc, hdocs⟩ := CreateUser_ok codec fresh c body hfresh
  have hfind : c'.lookup fresh = some ⟨fresh, (codec.Decode body User.zero).1.fields⟩ := by
    unfold Collection.lookup
    rw [hdocs]
    exact find_append_fresh c.docs ⟨fresh, (codec.Decode body User.zero).1.fields⟩ hfresh
  have hget : GetUser codec none c' fresh.Hex =
      (⟨200, some "application/json",
        codec.bytes ⟨fresh, (codec.Decode body User.zero).1.fields⟩⟩, c') := by
    simp [GetUser, ObjectIDFromHex_Hex, FindOne, hfind]
  simp only [hc, hget]
  refine ⟨trivial, trivial, trivial, ?_, ?_⟩
  · intro uj huj
    simp [Codec.bytes, huj]
  · intro e he
    simp [Codec.bytes, he]

theorem create_then_get_round_trip_witness :
    (GetUser sampleCodec none
        (CreateUser sampleCodec none otherOid sampleCollection sampleBody).2 otherOid.Hex).1.status
        = 200 ∧
      (GetUser sampleCodec none
        (CreateUser sampleCodec none otherOid sampleCollection sampleBody).2 otherOid.Hex).1 =
        ⟨200, (CreateUser sampleCodec none otherOid sampleCollection sampleBody).1.contentType,
          (CreateUser sampleCodec none otherOid sampleCollection sampleBody).1.body⟩ ∧
      (CreateUser sampleCodec none otherOid sampleCollection sampleBody).1.body =
        "\x7b\"id\":\"112233445566778899aabbcc\",\"name\":\"Ada\"\x7d" ∧
      (GetUser sampleCodec none
        (CreateUser sampleCodec none otherOid sampleCollection sampleBody).2 otherOid.Hex).1.body =
        "\x7b\"id\":\"112233445566778899aabbcc\",\"name\":\"Ada\"\x7d" :=
  have h := create_then_get_round_trip sampleCodec none otherOid sampleCollection sampleBody
    (by decide)
  ⟨h.1, h.2.1, (h.2.2.2.1 _ (by decide)).1, (h.2.2.2.1 _ (by decide)).2⟩

/-- Claim C2. For every path parameter that is not exactly 24 hexadecimal
characters, `GetUser` and `DeleteUser` answer 400, whatever the collection and
the state of the network, and leave the collection as it was. -/
theorem malformed_id_bad_request (codec : Codec) (faultG faultD : Option DriverError)
    (c : Collection) (id : String) (h : ¬ WellFormedId id) :
    (GetUser codec faultG c id).1.status = 400 ∧ (DeleteUser faultD c id).1.status = 400 ∧
      GetUser codec faultG c id = (httpError "Invalid ID" 400, c) ∧
      DeleteUser faultD c id = (httpError "Invalid ID" 400, c) := by
  obtain ⟨e, he⟩ := (ObjectIDFromHex_error_iff id).2 h
  simp [GetUser, DeleteUser, he, httpError]

theorem malformed_id_bad_request_witness :
    ((GetUser sampleCodec none sampleCollection "not-a-hex-id").1.status = 400 ∧
      (DeleteUser none sampleCollection "not-a-hex-id").1.status = 400 ∧
      GetUser sampleCodec none sampleCollection "not-a-hex-id" =
        (httpError "Invalid ID" 400, sampleCollection) ∧
      DeleteUser none sampleCollection "not-a-hex-id" =
        (httpError "Invalid ID" 400, sampleCollection)) ∧
    ((GetUser sampleCodec none sampleCollection "").1.status = 400 ∧
      (DeleteUser none sampleCollection "").1.status = 400 ∧
      GetUser sampleCodec none sampleCollection "" =
        (httpError "Invalid ID" 400, sampleCollection) ∧
      DeleteUser none sampleCollection "" = (httpError "Invalid ID" 400, sampleCollection)) :=
  ⟨malformed_id_bad_request sampleCodec none none sampleCollection "not-a-hex-id" (by decide),
    malformed_id_bad_request sampleCodec none none sampleCollection "" (by decide)⟩

/-- Claim C3. No resurrection: for a well-formed identifier whose record is
present, `DeleteUser`, its store call going through, answers 200, and a
`GetUser` on the same identifier in the resulting collection answers 404,
whatever the state of the network. -/
theorem delete_then_get_not_found (codec : Codec) (faultG : Option DriverError)
    (c : Collection) (id : String) (oid : ObjectID) (u : User)
    (hid : ObjectIDFromHex id = .ok oid) (hu : c.lookup oid = some u) :
    (DeleteUser none c id).1.status = 200 ∧
      (GetUser codec faultG (DeleteUser none c id).2 id).1.status = 404 := by
  obtain ⟨c', hc, hdocs⟩ := DeleteUser_present c id oid u hid hu
  rw [hc]
  refine ⟨rfl, ?_⟩
  have hgone : c'.lookup oid = none := by
    unfold Collection.lookup
    rw [hdocs]
    exact find_eraseP_same c.docs oid c.unique
  cases faultG <;> simp [GetUser, hid, FindOne, hgone]

theorem delete_then_get_not_found_witness :
    (DeleteUser none sampleCollection sampleId).1.status = 200 ∧
      (GetUser sampleCodec none (DeleteUser none sampleCollection sampleId).2 sampleId).1.status
        = 404 :=
  delete_then_get_not_found sampleCodec none sampleCollection sampleId sampleOid sampleUser
    (by decide) (by decide)

/-- Claim C4. For a well-formed identifier that has no record in the
collection, `DeleteUser` answers 404 and not 200, whatever the state of the
network; when the store call goes through it removed zero records, and the
collection is as it was. -/
theorem delete_absent_not_found (fault : Option DriverError) (c : Collection) (id : String)
    (oid : ObjectID) (hid : ObjectIDFromHex id = .ok oid) (hu : c.lookup oid = none) :
    (DeleteUser fault c id).1.status = 404 ∧ (DeleteUser fault c id).1.status ≠ 200 ∧
      (DeleteUser fault c id).2 = c ∧
      DeleteOne none c oid = .ok (0, c) := by
  rw [DeleteUser_absent fault c id oid hid hu]
  refine ⟨rfl, by simp [httpError], rfl, ?_⟩
  simp only [DeleteOne, hu, Option.isSome_none, Bool.false_eq_true, if_false]
  congr 2
  exact Collection.ext_docs (eraseP_of_absent c.docs oid hu)

theorem delete_absent_not_found_witness :
    (DeleteUser none sampleCollection otherId).1.status = 404 ∧
      (DeleteUser none sampleCollection otherId).1.status ≠ 200 ∧
      (DeleteUser none sampleCollection otherId).2 = sampleCollection ∧
      DeleteOne none sampleCollection otherOid = .ok (0, sampleCollection) :=
  delete_absent_not_found none sampleCollection otherId otherOid (by decide) (by decide)

/-- Claim C5. For a well-formed identifier, `GetUser` answers 404 when the
collection has no record for it, whatever the state of the network; when the
record is present and the store call goes through, it answers 200 with the
JSON encoding of that record; so, the store call going through, the status is
404 exactly when the record is absent. -/
theorem get_status_by_presence (codec : Codec) (c : Collection) (id : String) (oid : ObjectID)
    (hid : ObjectIDFromHex id = .ok oid) :
    (∀ fault, c.lookup oid = none → (GetUser codec fault c id).1.status = 404) ∧
      (∀ u, c.lookup oid = some u →
        (GetUser codec none c id).1 = ⟨200, some "application/json", codec.bytes u⟩ ∧
          ∀ uj, codec.Marshal u = .ok uj → (GetUser codec none c id).1.body = uj) ∧
      ((GetUser codec none c id).1.status = 404 ↔ c.lookup oid = none) := by
  refine ⟨?_, ?_, ?_⟩
  · intro fault hu
    cases fault <;> simp [GetUser, hid, FindOne, hu]
  · intro u hu
    refine ⟨by simp [GetUser, hid, FindOne, hu], ?_⟩
    intro uj huj
    simp [GetUser, hid, FindOne, hu, Codec.bytes, huj]
  · cases hu : c.lookup oid with
    | none => simp [GetUser, hid, FindOne, hu]
    | some u => simp [GetUser, hid, FindOne, hu]

theorem get_status_by_presence_witness :
    (GetUser sampleCodec (some .timeout) sampleCollection otherId).1.status = 404 ∧
      ((GetUser sampleCodec none sampleCollection sampleId).1 =
          ⟨200, some "application/json", sampleCodec.bytes sampleUser⟩ ∧
        (GetUser sampleCodec none sampleCollection sampleId).1.body =
          "\x7b\"id\":\"654abcdef0123456789abcde\",\"name\":\"Ada\"\x7d") ∧
      ((GetUser sampleCodec none sampleCollection otherId).1.status = 404 ↔
        sampleCollection.lookup otherOid = none) :=
  ⟨(get_status_by_presence sampleCodec sampleCollection otherId otherOid (by decide)).1
      (some .timeout) (by decide),
    ⟨((get_status_by_presence sampleCodec sampleCollection sampleId sampleOid (by decide)).2.1
        sampleUser (by decide)).1,
      ((get_status_by_presence sampleCodec sampleCollection sampleId sampleOid (by decide)).2.1
        sampleUser (by decide)).2 _ (by decide)⟩,
    (get_status_by_presence sampleCodec sampleCollection otherId otherOid (by decide)).2.2⟩

/-- Claim C6. `CreateUser` assigns the identifier itself: whenever it answers
201, the record it persisted and the record it returned are the same record,
made of the decoded fields and the newly generated identifier `fresh`, and the
body of the response is what `json.Marshal` gives for that record; an
identifier in the request body has no effect, as two bodies that decode to the
same fields get the same response and the same collection. -/
theorem create_assigns_identifier (codec : Codec) (fault : Option DriverError)
    (fresh : ObjectID) (c : Collection) (body : String) :
    ((CreateUser codec fault fresh c body).1.status = 201 →
      ∃ u : User, u.Id = fresh ∧ u.fields = (codec.Decode body User.zero).1.fields ∧
        (CreateUser codec fault fresh c body).1 = ⟨201, some "application/json", codec.bytes u⟩ ∧
        (∀ uj, codec.Marshal u = .ok uj → (CreateUser codec fault fresh c body).1.body = uj) ∧
        (∀ e, codec.Marshal u = .error e → (CreateUser codec fault fresh c body).1.body = "") ∧
        (CreateUser codec fault fresh c body).2.docs = c.docs ++ [u] ∧
        (CreateUser codec fault fresh c body).2.lookup fresh = some u) ∧
      (∀ body', (codec.Decode body' User.zero).1.fields = (codec.Decode body User.zero).1.fields →
        CreateUser codec fault fresh c body' = CreateUser codec fault fresh c body) := by
  refine ⟨?_, ?_⟩
  · intro h
    obtain ⟨hf, hfresh⟩ := CreateUser_created codec fault fresh c body h
    subst hf
    obtain ⟨c', hc, hdocs⟩ := CreateUser_ok codec fresh c body hfresh
    refine ⟨⟨fresh, (codec.Decode body User.zero).1.fields⟩, rfl, rfl, ?_, ?_, ?_, ?_, ?_⟩
    · rw [hc]
    · intro uj huj
      rw [hc]
      simp [Codec.bytes, huj]
    · intro e he
      rw [hc]
      simp [Codec.bytes, he]
    · rw [hc]; exact hdocs
    · rw [hc]
      unfold Collection.lookup
      rw [hdocs]
      exact find_append_fresh c.docs ⟨fresh, (codec.Decode body User.zero).1.fields⟩ hfresh
  · intro body' h
    simp only [CreateUser, h]

theorem create_assigns_identifier_witness :
    ((CreateUser sampleCodec none otherOid sampleCollection sampleBodyWithId).1 =
        ⟨201, some "application/json",
          "\x7b\"id\":\"112233445566778899aabbcc\",\"name\":\"Ada\"\x7d"⟩ ∧
      (CreateUser sampleCodec none otherOid sampleCollection sampleBodyWithId).2.docs =
        sampleCollection.docs ++ [⟨otherOid, [("name", "Ada")]⟩] ∧
      (CreateUser sampleCodec none otherOid sampleCollection sampleBodyWithId).2.lookup otherOid =
        some ⟨otherOid, [("name", "Ada")]⟩) ∧
      CreateUser sampleCodec none otherOid sampleCollection sampleBodyWithId =
        CreateUser sampleCodec none otherOid sampleCollection sampleBody :=
  have h := create_assigns_identifier sampleCodec none otherOid sampleCollection sampleBodyWithId
  ⟨by
      obtain ⟨u, h1, h2, h3, h4, -, h6, h7⟩ := h.1 (by decide)
      have hu : u = ⟨otherOid, [("name", "Ada")]⟩ := by
        cases u
        simp only at h1 h2
        subst h1 h2
        decide
      subst hu
      exact ⟨by rw [h3]; decide, h6, h7⟩,
    (create_assigns_identifier sampleCodec none otherOid sampleCollection sampleBody).2
      sampleBodyWithId (by decide)⟩

/-- Claim C7, as stated, fails: the body of a successful `DeleteUser` is not the
text `Deleted user <id>` alone, a newline follows it. -/
theorem delete_body_counterexample :
    ObjectIDFromHex sampleId = .ok sampleOid ∧
      sampleCollection.lookup sampleOid = some sampleUser ∧
      (DeleteUser none sampleCollection sampleId).1.status = 200 ∧
      (DeleteUser none sampleCollection sampleId).1.body ≠ "Deleted user " ++ sampleId ∧
      (DeleteUser none sampleCollection sampleId).1.body =
        "Deleted user 654abcdef0123456789abcde\n" := by
  decide

/-- Claim C7, as amended. For a well-formed identifier whose record is
present, `DeleteUser`, its store call going through, answers with status 200
and a body that is exactly the text `Deleted user <id>` followed by one
newline, where `<id>` is the identifier as given in the path; every response
of `DeleteUser` with status 200 has that body. -/
theorem delete_success_body (c : Collection) (id : String) (oid : ObjectID) (u : User)
    (hid : ObjectIDFromHex id = .ok oid) (hu : c.lookup oid = some u) :
    (DeleteUser none c id).1 = ⟨200, none, "Deleted user " ++ id ++ "\n"⟩ ∧
      ∀ fault, (DeleteUser fault c id).1.status = 200 →
        (DeleteUser fault c id).1.body = "Deleted user " ++ id ++ "\n" := by
  obtain ⟨c', hc, -⟩ := DeleteUser_present c id oid u hid hu
  refine ⟨by rw [hc], ?_⟩
  intro fault h
  cases fault with
  | some e => simp [DeleteUser, hid, DeleteOne, httpError] at h
  | none => rw [hc]

theorem delete_success_body_witness :
    (DeleteUser none sampleCollection sampleId).1 =
        ⟨200, none, "Deleted user " ++ sampleId ++ "\n"⟩ ∧
      ∀ fault, (DeleteUser fault sampleCollection sampleId).1.status = 200 →
        (DeleteUser fault sampleCollection sampleId).1.body =
          "Deleted user " ++ sampleId ++ "\n" :=
  delete_success_body sampleCollection sampleId sampleOid sampleUser (by decide) (by decide)

/-- Claim C8. `CreateUser` never rejects a request body: whatever the body and
whatever the decoder reports, when the store call goes through and the
generated identifier is new to the collection, the response is 201 and the
collection gains exactly one record, made of whatever was decoded and the
generated identifier (the empty record with that identifier when nothing was
decoded); the error of the decoder has no effect on the outcome. -/
theorem create_never_rejects (codec : Codec) (fresh : ObjectID) (c : Collection)
    (body : String) (hfresh : fresh ∉ c.ids) :
    (CreateUser codec none fresh c body).1.status = 201 ∧
      (CreateUser codec none fresh c body).2.docs =
        c.docs ++ [⟨fresh, (codec.Decode body User.zero).1.fields⟩] ∧
      (CreateUser codec none fresh c body).2.docs.length = c.docs.length + 1 ∧
      ((codec.Decode body User.zero).1 = User.zero →
        (CreateUser codec none fresh c body).2.docs = c.docs ++ [⟨fresh, []⟩]) ∧
      (∀ codec' : Codec, codec'.Marshal = codec.Marshal →
        (codec'.Decode body User.zero).1 = (codec.Decode body User.zero).1 →
        CreateUser codec' none fresh c body = CreateUser codec none fresh c body) := by
  obtain ⟨c', hc, hdocs⟩ := CreateUser_ok codec fresh c body hfresh
  refine ⟨by rw [hc], by rw [hc]; exact hdocs, by rw [hc]; simp [hdocs], ?_, ?_⟩
  · intro hz
    rw [hc, hdocs, hz]
    rfl
  · intro codec' hm hd
    simp only [CreateUser, hd, Codec.bytes, hm]

theorem create_never_rejects_witness :
    (CreateUser sampleCodec none otherOid sampleCollection "nonsense").1.status = 201 ∧
      (CreateUser sampleCodec none otherOid sampleCollection "nonsense").2.docs =
        sampleCollection.docs ++
          [⟨otherOid, (sampleCodec.Decode "nonsense" User.zero).1.fields⟩] ∧
      (CreateUser sampleCodec none otherOid sampleCollection "nonsense").2.docs.length =
        sampleCollection.docs.length + 1 ∧
      (CreateUser sampleCodec none otherOid sampleCollection "nonsense").2.docs =
        sampleCollection.docs ++ [⟨otherOid, []⟩] ∧
      CreateUser silentCodec none otherOid sampleCollection "nonsense" =
        CreateUser sampleCodec none otherOid sampleCollection "nonsense" :=
  have h := create_never_rejects sampleCodec otherOid sampleCollection "nonsense" (by decide)
  ⟨h.1, h.2.1, h.2.2.1, h.2.2.2.1 (by decide), h.2.2.2.2 silentCodec rfl rfl⟩

/-- Claim C9. Collapsed error mapping: whenever the store call returns an
error, whatever the error, `CreateUser` answers 404 and `DeleteUser` answers
404, the collection being as it was, and the response of `DeleteUser` is the
very response it gives for a missing record; `GetUser` answers 404 as well. No
store error leaves a handler in another form: the status of `CreateUser` is
always 201 or 404, that of `GetUser` and `DeleteUser` always 200, 400 or 404. -/
theorem store_failure_not_found (codec : Codec) (fault : Option DriverError)
    (fresh : ObjectID) (c : Collection) (body id : String) :
    (∀ e, InsertOne fault c ⟨fresh, (codec.Decode body User.zero).1.fields⟩ = .error e →
        CreateUser codec fault fresh c body = (⟨404, none, ""⟩, c)) ∧
      (∀ oid e, ObjectIDFromHex id = .ok oid → DeleteOne fault c oid = .error e →
        DeleteUser fault c id = (httpError "User not found" 404, c) ∧
          (DeleteUser fault c id).1.status = 404 ∧
          ∀ c₂ : Collection, c₂.lookup oid = none →
            (DeleteUser fault c id).1 = (DeleteUser none c₂ id).1) ∧
      (∀ oid e, ObjectIDFromHex id = .ok oid → FindOne fault c oid = .error e →
        GetUser codec fault c id = (⟨404, none, ""⟩, c)) ∧
      ((CreateUser codec fault fresh c body).1.status = 201 ∨
        (CreateUser codec fault fresh c body).1.status = 404) ∧
      ((DeleteUser fault c id).1.status = 200 ∨ (DeleteUser fault c id).1.status = 400 ∨
        (DeleteUser fault c id).1.status = 404) ∧
      ((GetUser codec fault c id).1.status = 200 ∨ (GetUser codec fault c id).1.status = 400 ∨
        (GetUser codec fault c id).1.status = 404) := by
  refine ⟨?_, ?_, ?_, ?_, ?_, ?_⟩
  · intro e he
    simp only [CreateUser, he]
  · intro oid e hid he
    have h1 : DeleteUser fault c id = (httpError "User not found" 404, c) := by
      simp only [DeleteUser, hid, he]
    refine ⟨h1, by rw [h1]; rfl, ?_⟩
    intro c₂ h2
    rw [h1, DeleteUser_absent none c₂ id oid hid h2]
  · intro oid e hid he
    simp only [GetUser, hid, he]
  · unfold CreateUser
    simp only
    split <;> simp
  · unfold DeleteUser
    split
    · simp [httpError]
    · split
      · simp [httpError]
      · split <;> simp [httpError]
  · unfold GetUser
    split
    · simp [httpError]
    · split <;> simp

theorem store_failure_not_found_witness :
    CreateUser sampleCodec (some .unreachable) otherOid sampleCollection sampleBody =
        (⟨404, none, ""⟩, sampleCollection) ∧
      CreateUser sampleCodec none sampleOid sampleCollection sampleBody =
        (⟨404, none, ""⟩, sampleCollection) ∧
      (DeleteUser (some .timeout) sampleCollection sampleId =
          (httpError "User not found" 404, sampleCollection) ∧
        (DeleteUser (some .timeout) sampleCollection sampleId).1.status = 404 ∧
        ∀ c₂ : Collection, c₂.lookup sampleOid = none →
          (DeleteUser (some .timeout) sampleCollection sampleId).1 =
            (DeleteUser none c₂ sampleId).1) ∧
      GetUser sampleCodec (some .timeout) sampleCollection sampleId =
        (⟨404, none, ""⟩, sampleCollection) :=
  ⟨(store_failure_not_found sampleCodec (some .unreachable) otherOid sampleCollection
      sampleBody sampleId).1 (.driver .unreachable) (by decide),
    (store_failure_not_found sampleCodec none sampleOid sampleCollection
      sampleBody sampleId).1 .duplicateKey (by decide),
    (store_failure_not_found sampleCodec (some .timeout) otherOid sampleCollection
      sampleBody sampleId).2.1 sampleOid (.driver .timeout) (by decide) rfl,
    (store_failure_not_found sampleCodec (some .timeout) otherOid sampleCollection
      sampleBody sampleId).2.2.1 sampleOid (.driver .timeout) (by decide) rfl⟩

/-- Claim C10. Frame of the handlers on the collection: `GetUser` leaves the
collection as it was, whatever its input; a `DeleteUser` answered with 400
leaves it as it was; and `DeleteUser` on a well-formed identifier changes at
most the record with that identifier: the lookup of every other identifier
gives the same record, or the same absence, after the call as before. -/
theorem handlers_frame (codec : Codec) (fault : Option DriverError) (c : Collection)
    (id : String) :
    (GetUser codec fault c id).2 = c ∧
      ((GetUser codec fault c id).1.status = 400 → (GetUser codec fault c id).2 = c) ∧
      ((DeleteUser fault c id).1.status = 400 → (DeleteUser fault c id).2 = c) ∧
      (∀ oid oid', ObjectIDFromHex id = .ok oid → oid' ≠ oid →
        (DeleteUser fault c id).2.lookup oid' = c.lookup oid') := by
  have hget : (GetUser codec fault c id).2 = c := by
    unfold GetUser
    split
    · rfl
    · split <;> rfl
  refine ⟨hget, fun _ => hget, ?_, ?_⟩
  · intro h
    unfold DeleteUser at h ⊢
    split
    · rfl
    · rename_i oid hid
      simp only [hid] at h
      split at h
      · simp [httpError] at h
      · split at h <;> simp [httpError] at h
  · intro oid oid' hid hne
    cases fault with
    | some e => simp [DeleteUser, hid, DeleteOne]
    | none =>
      have hdocs : (DeleteUser none c id).2.docs =
          c.docs.eraseP (fun u => decide (u.Id = oid)) := by
        simp only [DeleteUser, hid, DeleteOne]
        split <;> rfl
      unfold Collection.lookup
      rw [hdocs]
      exact find_eraseP_other c.docs oid oid' hne

theorem handlers_frame_witness :
    (GetUser sampleCodec none pairCollection "not-a-hex-id").2 = pairCollection ∧
      (DeleteUser none pairCollection "not-a-hex-id").2 = pairCollection ∧
      (DeleteUser none pairCollection sampleId).2.lookup otherOid =
        pairCollection.lookup otherOid :=
  ⟨(handlers_frame sampleCodec none pairCollection "not-a-hex-id").2.1 (by decide),
    (handlers_frame sampleCodec none pairCollection "not-a-hex-id").2.2.1 (by decide),
    (handlers_frame sampleCodec none pairCollection sampleId).2.2.2 sampleOid otherOid
      (by decide) (by decide)⟩

end MongoGolang
